import Mathlib

/-!
Verification development for the chat relay core of the c3po_frontend
repository: the in-memory session store (`src/chat/session_manager.py`),
the SSE stream relay (`src/chat/streaming.py`), the Claude client adapter
(`src/chat/claude_client.py`), the MCP tool dispatcher
(`src/chat/mcp_client.py`) and the chat HTTP API (`src/chat/api.py`).

The Python code is shallowly embedded: dictionaries become structures or
functions into `Option`, generators become pure functions from their input
event sequence to the list of values they yield, timestamps become natural
numbers supplied by the caller, and exceptions become `Option`/`Except`
results.  External collaborators (the Anthropic completion API, the
Perplexity subprocess, `json.loads`) are parameters of the definitions that
call them.
-/

namespace ChatCore

/-! ## Configuration constants (src/chat/config.py) -/

/-- `MAX_HISTORY_LENGTH = 50` in `src/chat/config.py`. -/
def MAX_HISTORY_LENGTH : Nat := 50

/-- `SESSION_TIMEOUT_HOURS = 1` in `src/chat/config.py`. -/
def SESSION_TIMEOUT_HOURS : Nat := 1

/-- `CLEANUP_INTERVAL_MINUTES = 15` in `src/chat/config.py`. -/
def CLEANUP_INTERVAL_MINUTES : Nat := 15

/-! ## Context objects

The free-form `context` dictionary attached to chat messages.  The code
(`format_context_for_prompt` in `src/chat/claude_client.py`) inspects only
the keys modelled below; Python truthiness tests on the values (`""`, `0`,
`[]`, missing key and `None` are all falsy) are modelled by the explicit
emptiness checks in `format_context_for_prompt`. -/

structure NodeInfo where
  cell_count : Option Nat
  gene_count : Option Nat
  program_count : Option Nat
deriving DecidableEq

structure Ctx where
  current_node : Option String
  current_program : Option String
  page_type : Option String
  node_info : Option NodeInfo
  visible_data : Option (List String)
deriving DecidableEq

/-- The empty context dictionary. -/
def Ctx.empty : Ctx := ⟨none, none, none, none, none⟩

/-! ## Session store (src/chat/session_manager.py) -/

/-- One entry of a session's `messages` list: the dictionary built in
`SessionManager.add_message`.  The ISO timestamp string is abstracted to a
natural number supplied by the caller in place of `datetime.now()`. -/
structure Message where
  role : String
  content : String
  context : Ctx
  timestamp : Nat
deriving DecidableEq

/-- One value of the `self.sessions` dictionary. -/
structure Session where
  created_at : Nat
  last_activity : Nat
  messages : List Message
deriving DecidableEq

/-- The `self.sessions` dictionary of `SessionManager`, as a map from
session identifier to session. -/
def Store : Type := String → Option Session

/-- The store with no sessions. -/
def Store.empty : Store := fun _ => none

/-- `SessionManager.create_session(session_id)`.  `sid = ""` models the
falsy arguments `None` and `""`; `freshId` stands for the fresh
`str(uuid.uuid4())` minted when `sid` is falsy.  Returns the resulting
session id together with the updated store.  An existing session named by
a truthy `sid` is only touched; otherwise a brand-new session record is
installed (overwriting any previous record at a minted id, as the Python
assignment does). -/
def create_session (st : Store) (sid : String) (freshId : String) (now : Nat) :
    String × Store :=
  if sid ≠ "" ∧ (st sid).isSome then
    (sid, fun k => if k = sid then (st sid).map (fun s => { s with last_activity := now }) else st k)
  else
    let s := if sid = "" then freshId else sid
    (s, fun k => if k = s then some ⟨now, now, []⟩ else st k)

/-- `l[-MAX_HISTORY_LENGTH:]` applied when the list is over-long: the
trimming step of `SessionManager.add_message`. -/
def trimMessages (l : List Message) : List Message :=
  if l.length > MAX_HISTORY_LENGTH then l.drop (l.length - MAX_HISTORY_LENGTH) else l

/-- `SessionManager.add_message(session_id, role, content, context)`.
`ctx = none` models the falsy contexts `None` and `{}` (the code stores
`context or {}`).  If the session is absent it is first created via
`create_session`; the subsequent `self.sessions[session_id]` lookup raises
`KeyError` when `session_id` was falsy (creation then happened under a
minted id), modelled by the `none` result. -/
def add_message (st : Store) (sid role content : String) (ctx : Option Ctx)
    (now : Nat) (freshId : String) : Option Store :=
  let st1 := if (st sid).isSome then st else (create_session st sid freshId now).2
  match st1 sid with
  | none => none
  | some sess =>
      let msg : Message := ⟨role, content, ctx.getD Ctx.empty, now⟩
      some (fun k =>
        if k = sid then
          some { sess with
                  messages := trimMessages (sess.messages ++ [msg]),
                  last_activity := now }
        else st1 k)

/-- `SessionManager.get_messages(session_id)`: the message list, or `[]`
for an unknown session. -/
def get_messages (st : Store) (sid : String) : List Message :=
  match st sid with
  | none => []
  | some sess => sess.messages

/-- An entry of the history submitted to the completion API: role and
content only. -/
structure RoleContent where
  role : String
  content : String
deriving DecidableEq

/-- `SessionManager.get_conversation_history(session_id)`: messages with
role `user` or `assistant`, restricted to role and content. -/
def get_conversation_history (st : Store) (sid : String) : List RoleContent :=
  (get_messages st sid).filterMap
    (fun m => if m.role = "user" ∨ m.role = "assistant" then some ⟨m.role, m.content⟩ else none)

/-- `SessionManager.session_exists(session_id)`. -/
def session_exists (st : Store) (sid : String) : Bool :=
  (st sid).isSome

/-! ### Helper lemmas about the store -/

theorem trimMessages_length_le (l : List Message) :
    (trimMessages l).length ≤ MAX_HISTORY_LENGTH ∨ (trimMessages l).length = l.length := by
  unfold trimMessages
  split
  · left
    rw [List.length_drop]
    omega
  · right
    rfl

theorem trimMessages_of_cap (old : List Message) (m : Message)
    (h : old.length = MAX_HISTORY_LENGTH) :
    trimMessages (old ++ [m]) = old.drop 1 ++ [m] := by
  unfold trimMessages
  have hlen : (old ++ [m]).length = MAX_HISTORY_LENGTH + 1 := by
    simp [h]
  rw [hlen]
  simp only [MAX_HISTORY_LENGTH] at *
  rw [if_pos (by omega)]
  have : (51 : Nat) - 50 = 1 := by omega
  rw [this, List.drop_append_of_le_length (by omega)]

/-- `add_message` succeeds whenever the session id is truthy, and the new
message list is the trimmed extension of the old one. -/
theorem add_message_eq (st : Store) (sid role content : String) (ctx : Option Ctx)
    (now : Nat) (freshId : String) (hsid : sid ≠ "") :
    ∃ st2, add_message st sid role content ctx now freshId = some st2 ∧
      get_messages st2 sid =
        trimMessages (get_messages st sid ++
          [Message.mk role content (ctx.getD Ctx.empty) now]) := by
  cases hst : st sid with
  | some sess =>
      have h1 : (st sid).isSome = true := by rw [hst]; rfl
      refine ⟨fun k => if k = sid then
          some { sess with
                  messages := trimMessages (sess.messages ++
                    [Message.mk role content (ctx.getD Ctx.empty) now]),
                  last_activity := now }
        else st k, ?_, ?_⟩
      · simp [add_message, hst]
      · simp [get_messages, hst]
  | none =>
      have h1 : (st sid).isSome = false := by rw [hst]; rfl
      have hcr : (create_session st sid freshId now).2 sid = some ⟨now, now, []⟩ := by
        unfold create_session
        rw [if_neg (by simp [hst])]
        have hs : (if sid = "" then freshId else sid) = sid := if_neg hsid
        simp only [hs]
        simp
      refine ⟨fun k => if k = sid then
          some ⟨now, now,
            trimMessages ([] ++ [Message.mk role content (ctx.getD Ctx.empty) now])⟩
        else (create_session st sid freshId now).2 k, ?_, ?_⟩
      · simp [add_message, hst, hcr]
      · simp [get_messages, hst]

/-- C6 helper: the new message list is a suffix of the old list extended
by the new message. -/
theorem trimMessages_is_drop (l : List Message) :
    ∃ k, trimMessages l = l.drop k := by
  unfold trimMessages
  split
  · exact ⟨l.length - MAX_HISTORY_LENGTH, rfl⟩
  · exact ⟨0, rfl⟩

/-- C6: after every `add_message` on a (truthy) session id the stored list
has length at most the cap of 50; appending at exactly the cap leaves
exactly 50 messages with the oldest dropped and order preserved; and the
new list is always a suffix of the old list with the new message appended
(messages are never mutated or reordered). -/
theorem add_message_cap (st : Store) (sid role content : String) (ctx : Option Ctx)
    (now : Nat) (freshId : String) (hsid : sid ≠ "") :
    ∃ st2, add_message st sid role content ctx now freshId = some st2 ∧
      (get_messages st2 sid).length ≤ MAX_HISTORY_LENGTH ∧
      (∃ k, get_messages st2 sid =
        (get_messages st sid ++ [Message.mk role content (ctx.getD Ctx.empty) now]).drop k) ∧
      ((get_messages st sid).length = MAX_HISTORY_LENGTH →
        get_messages st2 sid =
          (get_messages st sid).drop 1 ++ [Message.mk role content (ctx.getD Ctx.empty) now] ∧
        (get_messages st2 sid).length = MAX_HISTORY_LENGTH) := by
  obtain ⟨st2, hst2, hmsgs⟩ := add_message_eq st sid role content ctx now freshId hsid
  refine ⟨st2, hst2, ?_, ?_, ?_⟩
  · rw [hmsgs]
    rcases trimMessages_length_le
      (get_messages st sid ++ [Message.mk role content (ctx.getD Ctx.empty) now]) with h | h
    · exact h
    · unfold trimMessages at h ⊢
      split at h
      · next hgt => rw [List.length_drop] at h; omega
      · next hle =>
        rw [if_neg hle]
        simp only [not_lt, List.length_append, List.length_singleton] at hle ⊢
        omega
  · rw [hmsgs]
    exact trimMessages_is_drop _
  · intro hcap
    constructor
    · rw [hmsgs, trimMessages_of_cap _ _ hcap]
    · rw [hmsgs, trimMessages_of_cap _ _ hcap]
      simp only [List.length_append, List.length_singleton, List.length_drop, hcap]
      simp [MAX_HISTORY_LENGTH]

/-- Concrete witness for `add_message_cap`: a session holding exactly 50
messages, to which one more is appended. -/
def msgA : Message := ⟨"user", "old", Ctx.empty, 0⟩

def storeAt50 : Store :=
  fun k => if k = "s" then some ⟨0, 0, List.replicate 50 msgA⟩ else none

theorem add_message_cap_witness :
    ∃ st2, add_message storeAt50 "s" "user" "new" none 7 "fresh" = some st2 ∧
      (get_messages st2 "s").length ≤ MAX_HISTORY_LENGTH ∧
      (∃ k, get_messages st2 "s" =
        (get_messages storeAt50 "s" ++ [Message.mk "user" "new" Ctx.empty 7]).drop k) ∧
      ((get_messages storeAt50 "s").length = MAX_HISTORY_LENGTH →
        get_messages st2 "s" =
          (get_messages storeAt50 "s").drop 1 ++ [Message.mk "user" "new" Ctx.empty 7] ∧
        (get_messages st2 "s").length = MAX_HISTORY_LENGTH) :=
  add_message_cap storeAt50 "s" "user" "new" none 7 "fresh" (by decide)

/-! ## SSE stream relay (src/chat/streaming.py)

The generator inside `stream_chat_response` yields SSE messages, each a
`data: <json>` frame produced by `create_sse_response`.  The frames are
modelled by the discriminated union below instead of their JSON
serialisation. -/

inductive SSEEvent where
  | start (session_id : String)
  | chunk (content : String)
  | endEv (message_id : String)
  | errorEv (message : String)
deriving DecidableEq

def SSEEvent.isStart : SSEEvent → Bool
  | .start _ => true
  | _ => false

def SSEEvent.isChunk : SSEEvent → Bool
  | .chunk _ => true
  | _ => false

/-- `end` and `error` are the terminal frames. -/
def SSEEvent.isTerminal : SSEEvent → Bool
  | .endEv _ => true
  | .errorEv _ => true
  | _ => false

/-- The apostrophe character, used by `str(KeyError(k))` which renders the
missing key in quotes. -/
def quoteChar : Char := Char.ofNat 39

/-- `str(e)` for the `KeyError` raised by `self.sessions[session_id]` in
`add_message` when the session id was falsy: the repr of the key. -/
def pyKeyErrorText (sid : String) : String :=
  String.singleton quoteChar ++ sid ++ String.singleton quoteChar

/-- The generator of `stream_chat_response` in `src/chat/streaming.py`.

* `clientAvailable` models `claude_client` being non-`None`;
* `chunks` are the fragments the drain loop receives from
  `claude_client.stream_response(message, history, context)` before that
  loop either finishes or an exception surfaces (the conversation history
  fetched from the session store is consumed by the adapter and therefore
  only influences `chunks`);
* `exn = some m` models an exception with text `m` escaping the drain
  loop after the listed chunks were relayed; `exn = none` is the normal
  exit;
* `mt` stands for `int(time.time())` in the end frame id, `now` for
  `datetime.now()` inside `add_message`.

Returns the emitted frame sequence and the resulting session store.  On
the normal exit the accumulated `full_response` buffer (the concatenation
of all relayed chunks) is appended to the store as one `assistant`
message before the `end` frame; if that `add_message` itself raises, the
same `except` clause emits an `error` frame instead. -/
def relayGenerate (clientAvailable : Bool) (sid : String) (ctx : Option Ctx)
    (chunks : List String) (exn : Option String) (st : Store) (now mt : Nat)
    (freshId : String) : List SSEEvent × Store :=
  if clientAvailable = false then
    ([.errorEv "Chat service is not available. Please check configuration."], st)
  else
    match exn with
    | some m =>
        (.start sid :: (chunks.map .chunk ++
          [.errorEv ("An error occurred while processing your message: " ++ m)]), st)
    | none =>
        match add_message st sid "assistant" (String.join chunks) ctx now freshId with
        | some st2 =>
            (.start sid :: (chunks.map .chunk ++ [.endEv ("msg_" ++ toString mt)]), st2)
        | none =>
            (.start sid :: (chunks.map .chunk ++
              [.errorEv ("An error occurred while processing your message: " ++
                pyKeyErrorText sid)]), st)

/-! ### C1: stream event ordering -/

theorem countP_map_chunk (chunks : List String) (p : SSEEvent → Bool)
    (h : ∀ c, p (SSEEvent.chunk c) = false) :
    (chunks.map SSEEvent.chunk).countP p = 0 := by
  induction chunks with
  | nil => rfl
  | cons c rest ih => simp [List.countP_cons, h, ih]

@[simp] theorem isStart_start (s : String) : (SSEEvent.start s).isStart = true := rfl

@[simp] theorem isStart_chunk (c : String) : (SSEEvent.chunk c).isStart = false := rfl

@[simp] theorem isTerminal_start (s : String) : (SSEEvent.start s).isTerminal = false := rfl

@[simp] theorem isTerminal_chunk (c : String) : (SSEEvent.chunk c).isTerminal = false := rfl

/-- C1 (amended): when the Claude client is configured, every relay
execution emits exactly one `start` frame first, then exactly the relayed
chunks as `chunk` frames, then exactly one terminal frame (`end` or
`error`) as the last event with nothing after it. -/
theorem relay_event_ordering (sid : String) (ctx : Option Ctx)
    (chunks : List String) (exn : Option String) (st : Store) (now mt : Nat)
    (freshId : String) :
    ∃ t, (relayGenerate true sid ctx chunks exn st now mt freshId).1 =
        .start sid :: (chunks.map .chunk ++ [t]) ∧
      t.isTerminal = true ∧
      ((relayGenerate true sid ctx chunks exn st now mt freshId).1.countP
        SSEEvent.isStart) = 1 ∧
      ((relayGenerate true sid ctx chunks exn st now mt freshId).1.countP
        SSEEvent.isTerminal) = 1 := by
  have hmk : ∀ t : SSEEvent, t.isTerminal = true →
      (SSEEvent.start sid :: (chunks.map .chunk ++ [t])).countP SSEEvent.isStart = 1 ∧
      (SSEEvent.start sid :: (chunks.map .chunk ++ [t])).countP SSEEvent.isTerminal = 1 := by
    intro t ht
    have hnot : t.isStart = false := by
      cases t <;> simp_all [SSEEvent.isTerminal, SSEEvent.isStart]
    constructor
    · simp [List.countP_cons, List.countP_append,
        countP_map_chunk chunks SSEEvent.isStart (fun c => rfl), hnot]
    · simp [List.countP_cons, List.countP_append,
        countP_map_chunk chunks SSEEvent.isTerminal (fun c => rfl), ht]
  unfold relayGenerate
  simp only [Bool.true_eq_false, if_false]
  cases exn with
  | some m =>
      exact ⟨.errorEv ("An error occurred while processing your message: " ++ m),
        rfl, rfl,
        (hmk (.errorEv ("An error occurred while processing your message: " ++ m)) rfl).1,
        (hmk (.errorEv ("An error occurred while processing your message: " ++ m)) rfl).2⟩
  | none =>
      cases add_message st sid "assistant" (String.join chunks) ctx now freshId with
      | some st2 =>
          exact ⟨.endEv ("msg_" ++ toString mt), rfl, rfl,
            (hmk (.endEv ("msg_" ++ toString mt)) rfl).1,
            (hmk (.endEv ("msg_" ++ toString mt)) rfl).2⟩
      | none =>
          exact ⟨.errorEv ("An error occurred while processing your message: " ++
              pyKeyErrorText sid), rfl, rfl,
            (hmk (.errorEv ("An error occurred while processing your message: " ++
              pyKeyErrorText sid)) rfl).1,
            (hmk (.errorEv ("An error occurred while processing your message: " ++
              pyKeyErrorText sid)) rfl).2⟩

/-- C1 counterexample to the claim as stated: when the Claude client is
not configured (`claude_client` is `None`), the emitted sequence is a
single `error` frame and contains no `start` event at all. -/
theorem relay_unavailable_no_start :
    (relayGenerate false "s" none [] none Store.empty 0 0 "f").1 =
      [.errorEv "Chat service is not available. Please check configuration."] ∧
    ((relayGenerate false "s" none [] none Store.empty 0 0 "f").1.countP
      SSEEvent.isStart) = 0 := by
  constructor <;> rfl

/-! ### C2: error exit persists nothing; normal exit persists the buffer -/

/-- C2: if an exception escapes the drain loop the relay emits an `error`
frame and leaves the session store untouched (no assistant message, partial
or otherwise); on the exception-free exit the accumulated buffer — the
concatenation of all relayed chunks — is appended to the store as one
`assistant` message and the stream ends with the `end` frame. -/
theorem relay_error_no_persist (sid : String) (ctx : Option Ctx)
    (chunks : List String) (st : Store) (now mt : Nat) (freshId : String)
    (m : String) (hsid : sid ≠ "") :
    relayGenerate true sid ctx chunks (some m) st now mt freshId =
      (.start sid :: (chunks.map .chunk ++
        [.errorEv ("An error occurred while processing your message: " ++ m)]), st) ∧
    ∃ st2, relayGenerate true sid ctx chunks none st now mt freshId =
        (.start sid :: (chunks.map .chunk ++ [.endEv ("msg_" ++ toString mt)]), st2) ∧
      get_messages st2 sid =
        trimMessages (get_messages st sid ++
          [Message.mk "assistant" (String.join chunks) (ctx.getD Ctx.empty) now]) := by
  constructor
  · rfl
  · obtain ⟨st2, hadd, hmsgs⟩ :=
      add_message_eq st sid "assistant" (String.join chunks) ctx now freshId hsid
    refine ⟨st2, ?_, hmsgs⟩
    unfold relayGenerate
    simp [hadd]

/-- Witness for `relay_error_no_persist` at a concrete input. -/
theorem relay_error_no_persist_witness :
    relayGenerate true "s" none ["a", "b"] (some "boom") Store.empty 3 9 "f" =
      (.start "s" :: ([SSEEvent.chunk "a", SSEEvent.chunk "b"] ++
        [.errorEv ("An error occurred while processing your message: " ++ "boom")]),
        Store.empty) ∧
    ∃ st2, relayGenerate true "s" none ["a", "b"] none Store.empty 3 9 "f" =
        (.start "s" :: ([SSEEvent.chunk "a", SSEEvent.chunk "b"] ++
          [.endEv ("msg_" ++ toString 9)]), st2) ∧
      get_messages st2 "s" =
        trimMessages (get_messages Store.empty "s" ++
          [Message.mk "assistant" (String.join ["a", "b"]) Ctx.empty 3]) :=
  relay_error_no_persist "s" none ["a", "b"] Store.empty 3 9 "f" "boom" (by decide)

/-! ## Cosmetic formatting pass (`format_markdown_response` in
src/chat/claude_client.py)

Each `re.sub` call is embedded as a left-to-right scan over the character
list, replacing each non-overlapping match and resuming after it, exactly
as `re.sub` does.  `\s` is modelled by the ASCII whitespace characters
(space, tab, newline, carriage return, vertical tab, form feed). -/

def isPySpace (c : Char) : Bool :=
  c = ' ' ∨ c = '\t' ∨ c = '\n' ∨ c = '\r' ∨ c = Char.ofNat 11 ∨ c = Char.ofNat 12

/-- Search for the lazy closing `**` of `\*\*(.*?)\*\*` (`.` does not match
a newline): returns the shortest body and the remainder after the closing
`**`. -/
def findBoldClose (acc : List Char) : List Char → Option (List Char × List Char)
  | [] => none
  | [_] => none
  | a :: b :: rest =>
      if a = '*' ∧ b = '*' then some (acc.reverse, rest)
      else if a = '\n' then none
      else findBoldClose (a :: acc) (b :: rest)

theorem findBoldClose_length : ∀ (l acc body rest : List Char),
    findBoldClose acc l = some (body, rest) → rest.length + 2 ≤ l.length := by
  intro l
  induction l with
  | nil => intro acc body rest h; simp [findBoldClose] at h
  | cons a l ih =>
      intro acc body rest h
      cases l with
      | nil => simp [findBoldClose] at h
      | cons b l2 =>
          unfold findBoldClose at h
          split at h
          · simp only [Option.some.injEq, Prod.mk.injEq] at h
            simp [← h.2]
          · split at h
            · exact absurd h (by simp)
            · have := ih _ _ _ h
              simp only [List.length_cons] at this ⊢
              omega

/-- `re.sub(r'\*\*(.*?)\*\*', r'**\1**', content)`: each match is replaced
by itself (the replacement template reproduces the match), so this scan
reconstructs its input.  The scan recurses on a fuel argument so that it
is structurally recursive; every step consumes at least one character
(`findBoldClose_length`), so fuel equal to the input length is never
exhausted and the fallback identity case is unreachable. -/
def subBoldAuxF : Nat → List Char → List Char
  | _, [] => []
  | _, [c] => [c]
  | 0, l => l
  | fuel + 1, a :: b :: rest =>
      if a = '*' ∧ b = '*' then
        match findBoldClose [] rest with
        | some (body, rest2) => '*' :: '*' :: (body ++ '*' :: '*' :: subBoldAuxF fuel rest2)
        | none => a :: subBoldAuxF fuel (b :: rest)
      else a :: subBoldAuxF fuel (b :: rest)

def subBoldAux (l : List Char) : List Char := subBoldAuxF l.length l

/-- Digit run scanner for `\[(\d+)\]`: from the position after `[`, collect
one-or-more digits directly followed by `]`. -/
def citeDigits (acc : List Char) : List Char → Option (List Char × List Char)
  | [] => none
  | a :: rest =>
      if a = ']' then (if acc = [] then none else some (acc.reverse, rest))
      else if a.isDigit then citeDigits (a :: acc) rest
      else none

theorem citeDigits_length : ∀ (l acc body rest : List Char),
    citeDigits acc l = some (body, rest) → rest.length + 1 ≤ l.length := by
  intro l
  induction l with
  | nil => intro acc body rest h; simp [citeDigits] at h
  | cons a l ih =>
      intro acc body rest h
      unfold citeDigits at h
      split at h
      · split at h
        · exact absurd h (by simp)
        · simp only [Option.some.injEq, Prod.mk.injEq] at h
          simp [← h.2]
      · split at h
        · have := ih _ _ _ h
          simp only [List.length_cons] at this ⊢
          omega
        · exact absurd h (by simp)

/-- `re.sub(r'\[(\d+)\]', r'[\1]', content)`: again each match is replaced
by itself.  Fuel-structured like `subBoldAuxF` (`citeDigits_length`). -/
def subCiteAuxF : Nat → List Char → List Char
  | _, [] => []
  | 0, l => l
  | fuel + 1, c :: rest =>
      if c = '[' then
        match citeDigits [] rest with
        | some (ds, rest2) => '[' :: (ds ++ ']' :: subCiteAuxF fuel rest2)
        | none => c :: subCiteAuxF fuel rest
      else c :: subCiteAuxF fuel rest

def subCiteAux (l : List Char) : List Char := subCiteAuxF l.length l

/-- `re.sub(r'(?<!\n)\n- ', r'\n\n- ', content)` and its `•` twin: insert a
newline before `\n<mark> ` when the preceding character is not a newline.
`prevNL` carries the look-behind state; it is `false` at the start of the
input (the look-behind succeeds there). -/
def subBulletAux (mark : Char) (prevNL : Bool) : List Char → List Char
  | [] => []
  | [c] => [c]
  | [a, b] => [a, b]
  | a :: b :: c :: rest =>
      if a = '\n' ∧ b = mark ∧ c = ' ' ∧ prevNL = false then
        '\n' :: '\n' :: b :: ' ' :: subBulletAux mark false rest
      else a :: subBulletAux mark (a = '\n') (b :: c :: rest)

/-- Body scanner for `\n([A-Z][^:\n]*:)\n`: from the position after the
uppercase letter, consume characters other than `:` and newline until a
`:` immediately followed by a newline; greediness and backtracking of
`[^:\n]*` collapse to this single scan because `:` is excluded from the
class. -/
def headerBody (acc : List Char) : List Char → Option (List Char × List Char)
  | [] => none
  | [_] => none
  | a :: b :: rest =>
      if a = ':' then (if b = '\n' then some (acc.reverse ++ [':'], rest) else none)
      else if a = '\n' then none
      else headerBody (a :: acc) (b :: rest)

theorem headerBody_length : ∀ (l acc body rest : List Char),
    headerBody acc l = some (body, rest) → rest.length + 2 ≤ l.length := by
  intro l
  induction l with
  | nil => intro acc body rest h; simp [headerBody] at h
  | cons a l ih =>
      intro acc body rest h
      cases l with
      | nil => simp [headerBody] at h
      | cons b l2 =>
          unfold headerBody at h
          split at h
          · split at h
            · simp only [Option.some.injEq, Prod.mk.injEq] at h
              simp [← h.2]
            · exact absurd h (by simp)
          · split at h
            · exact absurd h (by simp)
            · have := ih _ _ _ h
              simp only [List.length_cons] at this ⊢
              omega

/-- `re.sub(r'\n([A-Z][^:\n]*:)\n', r'\n\n**\1**\n\n', content)`: wrap a
header-like line in bold and blank lines.  The trailing newline of the
match is consumed, so scanning resumes after it.  Fuel-structured like
`subBoldAuxF` (`headerBody_length`). -/
def subHeaderAuxF : Nat → List Char → List Char
  | _, [] => []
  | _, [c] => [c]
  | 0, l => l
  | fuel + 1, a :: b :: rest =>
      if a = '\n' ∧ 'A' ≤ b ∧ b ≤ 'Z' then
        match headerBody [b] rest with
        | some (grp, rest2) =>
            '\n' :: '\n' :: '*' :: '*' ::
              (grp ++ '*' :: '*' :: '\n' :: '\n' :: subHeaderAuxF fuel rest2)
        | none => a :: subHeaderAuxF fuel (b :: rest)
      else a :: subHeaderAuxF fuel (b :: rest)

def subHeaderAux (l : List Char) : List Char := subHeaderAuxF l.length l

/-- Greedy `[^\s\]]+` tail of a URL: longest run of characters that are
neither whitespace nor `]`.  Returns the run and the remainder. -/
def urlTail (acc : List Char) : List Char → List Char × List Char
  | [] => (acc.reverse, [])
  | c :: rest =>
      if isPySpace c ∨ c = ']' then (acc.reverse, c :: rest)
      else urlTail (c :: acc) rest

theorem urlTail_length : ∀ (l acc tail rest : List Char),
    urlTail acc l = (tail, rest) → rest.length ≤ l.length := by
  intro l
  induction l with
  | nil =>
      intro acc tail rest h
      simp only [urlTail, Prod.mk.injEq] at h
      simp [← h.2]
  | cons c l ih =>
      intro acc tail rest h
      unfold urlTail at h
      split at h
      · simp only [Prod.mk.injEq] at h
        simp [← h.2]
      · have := ih _ _ _ h
        simp only [List.length_cons]
        omega

/-- `'://'` check after the scheme name of `https?://`. -/
def checkSlashes : List Char → Option (List Char)
  | a :: b :: c :: rest => if a = ':' ∧ b = '/' ∧ c = '/' then some rest else none
  | _ => none

/-- Try to match `(https?://[^\s\]]+)` at the head of the list; on success
return the matched characters and the remainder.  The optional greedy `s?`
needs no real backtracking: if `s` is present but `://` does not follow,
the `:`-test at the `s` position fails as well. -/
def matchUrl (l : List Char) : Option (List Char × List Char) :=
  match l with
  | a :: b :: c :: d :: rest =>
      if a = 'h' ∧ b = 't' ∧ c = 't' ∧ d = 'p' then
        match rest with
        | e :: rest2 =>
            if e = 's' then
              match checkSlashes rest2 with
              | some rest3 =>
                  match urlTail [] rest3 with
                  | (t, r) =>
                      if t = [] then none
                      else some (['h', 't', 't', 'p', 's', ':', '/', '/'] ++ t, r)
              | none => none
            else
              match checkSlashes rest with
              | some rest3 =>
                  match urlTail [] rest3 with
                  | (t, r) =>
                      if t = [] then none
                      else some (['h', 't', 't', 'p', ':', '/', '/'] ++ t, r)
              | none => none
        | [] => none
      else none
  | _ => none

theorem checkSlashes_length (l rest : List Char) :
    checkSlashes l = some rest → rest.length + 3 ≤ l.length := by
  intro h
  unfold checkSlashes at h
  split at h
  · split at h
    · simp only [Option.some.injEq] at h
      subst h
      simp only [List.length_cons]
      omega
    · exact absurd h (by simp)
  · exact absurd h (by simp)

theorem matchUrl_length (l url rest : List Char) :
    matchUrl l = some (url, rest) → rest.length + 1 ≤ l.length := by
  intro h
  unfold matchUrl at h
  split at h
  · next a b c d rest0 =>
      split at h
      · split at h
        · next e rest2 =>
            split at h
            · split at h
              · next rest3 hcs =>
                  split at h
                  · next t r hut =>
                      split at h
                      · exact absurd h (by simp)
                      · simp only [Option.some.injEq, Prod.mk.injEq] at h
                        have h1 := checkSlashes_length rest2 rest3 hcs
                        have h2 := urlTail_length rest3 [] t r hut
                        rw [← h.2]
                        simp only [List.length_cons]
                        omega
              · exact absurd h (by simp)
            · split at h
              · next rest3 hcs =>
                  split at h
                  · next t r hut =>
                      split at h
                      · exact absurd h (by simp)
                      · simp only [Option.some.injEq, Prod.mk.injEq] at h
                        have h1 := checkSlashes_length (e :: rest2) rest3 hcs
                        have h2 := urlTail_length rest3 [] t r hut
                        rw [← h.2]
                        simp only [List.length_cons] at h1 ⊢
                        omega
              · exact absurd h (by simp)
        · exact absurd h (by simp)
      · exact absurd h (by simp)
  · exact absurd h (by simp)

/-- `re.sub(r'(https?://[^\s\]]+)', r'[\1](\1)', content)`: wrap each URL
match `u` as `[u](u)`.  Fuel-structured like `subBoldAuxF`
(`matchUrl_length`). -/
def subUrlAuxF : Nat → List Char → List Char
  | _, [] => []
  | 0, l => l
  | fuel + 1, c :: rest =>
      match matchUrl (c :: rest) with
      | some (url, rest2) => '[' :: (url ++ ']' :: '(' :: (url ++ ')' :: subUrlAuxF fuel rest2))
      | none => c :: subUrlAuxF fuel rest

def subUrlAux (l : List Char) : List Char := subUrlAuxF l.length l

theorem length_dropWhile_le_chat (p : Char → Bool) (l : List Char) :
    (l.dropWhile p).length ≤ l.length := by
  induction l with
  | nil => simp [List.dropWhile]
  | cons a l ih =>
      rw [List.dropWhile_cons]
      split
      · simp only [List.length_cons]; omega
      · simp

/-- `re.sub(r'\n{3,}', r'\n\n', content)`: collapse each run of three or
more newlines to exactly two.  Fuel-structured like `subBoldAuxF`
(`length_dropWhile_le_chat`). -/
def collapseNLAuxF : Nat → List Char → List Char
  | _, [] => []
  | _, [a] => [a]
  | _, [a, b] => [a, b]
  | 0, l => l
  | fuel + 1, a :: b :: c :: rest =>
      if a = '\n' ∧ b = '\n' ∧ c = '\n' then
        '\n' :: '\n' :: collapseNLAuxF fuel (rest.dropWhile (fun x => x = '\n'))
      else a :: collapseNLAuxF fuel (b :: c :: rest)

def collapseNLAux (l : List Char) : List Char := collapseNLAuxF l.length l

/-- Python `str.strip()` over the ASCII whitespace model. -/
def pyStripL (l : List Char) : List Char :=
  ((l.dropWhile (fun c => isPySpace c)).reverse.dropWhile (fun c => isPySpace c)).reverse

/-- Python `str.strip()` on strings, used by `send_message` on `message`
and `session_id`. -/
def pyStripS (s : String) : String := ⟨pyStripL s.data⟩

/-- `ClaudeClient.format_markdown_response(content)`: the seven `re.sub`
passes in source order followed by `.strip()`. -/
def format_markdown_response (content : String) : String :=
  ⟨pyStripL (collapseNLAux (subUrlAux (subHeaderAux
    (subBulletAux '•' false (subBulletAux '-' false
      (subCiteAux (subBoldAux content.data)))))))⟩

/-- C3: the cosmetic formatting pass is NOT idempotent.  The URL-wrapping
substitution rewrites URLs that are already inside markdown links, so a
second application mangles the output of the first: on the input
`http://a` the first pass yields a markdown link and the second pass wraps
both URL occurrences inside it again. -/
theorem format_markdown_not_idempotent :
    format_markdown_response (format_markdown_response "http://a") ≠
      format_markdown_response "http://a" := by
  decide

/-! ## Tool dispatcher (src/chat/mcp_client.py) -/

/-- One parameter entry of a tool's parameter schema. -/
structure ParamSpec where
  type : String
  description : String
deriving DecidableEq

/-- The `MCPTool` dataclass. -/
structure MCPTool where
  name : String
  description : String
  parameters : List (String × ParamSpec)
  server_name : String
deriving DecidableEq

/-- The hardcoded Perplexity tool installed by `MCPClient.initialize`. -/
def perplexityTool : MCPTool :=
  { name := "perplexity-ask:perplexity_ask"
    description := "Search the web using Perplexity AI to get current information and research. Use this when you need current information, recent papers, or want to verify facts."
    parameters := [("query",
      ⟨"string",
       "The search query to find information about. Be specific and include relevant keywords."⟩)]
    server_name := "perplexity-ask" }

/-- The registry `self.tools` after `MCPClient.initialize`. -/
def mcpToolsInit : List MCPTool := [perplexityTool]

/-- The argument mapping of a tool invocation.  The dispatcher only reads
`arguments.get("query", "")`, so the mapping is modelled by its optional
`query` member; `ToolArgs.empty` is the empty object `{}` substituted when
the accumulated argument text is empty or unparsable. -/
structure ToolArgs where
  query : Option String
deriving DecidableEq

def ToolArgs.empty : ToolArgs := ⟨none⟩

/-- Result values of `MCPClient.call_tool`.  `call_perplexity_search`
always returns a mapping with a `content` member (or raises); the other
shapes exist because `handle_tool_use` branches on them. -/
inductive ToolCallResult where
  | withContent (content : String)
  | otherDict (serialized : String)
  | nonDict (text : String)
deriving DecidableEq

/-- `MCPClient.call_tool(tool_name, arguments)`.  `search` abstracts
`call_perplexity_search` (subprocess JSON-RPC to the Perplexity server):
`Except.error m` models an exception with message `m`, `Except.ok c` the
returned `{content: c}` mapping.  An unknown tool name raises
`ValueError(f"Tool {tool_name} not found")`; a falsy `query` argument is
replaced by the placeholder query string. -/
def call_tool (tools : List MCPTool) (search : String → Except String String)
    (tool_name : String) (arguments : ToolArgs) : Except String ToolCallResult :=
  match tools.find? (fun t => t.name = tool_name) with
  | none => .error ("Tool " ++ tool_name ++ " not found")
  | some tool =>
      if tool.server_name = "perplexity-ask" then
        let query := arguments.query.getD ""
        let query := if query = "" then "Please provide a search query" else query
        (search query).map ToolCallResult.withContent
      else
        .error ("Unsupported server: " ++ tool.server_name)

/-! ## Claude client adapter (src/chat/claude_client.py) -/

/-- `tool_key.replace(':', '_')` in `MCPClient.get_tools_for_claude`:
the completion API does not accept colons in function names. -/
def claudeToolName (s : String) : String :=
  ⟨s.data.map (fun c => if c = ':' then '_' else c)⟩

/-- `tool_name.replace('_', ':', 1)` in `ClaudeClient.handle_tool_use`:
convert a completion-API tool name back to the MCP registry name by
replacing only the first underscore. -/
def pyReplaceFirst (a b : Char) : List Char → List Char
  | [] => []
  | c :: rest => if c = a then b :: rest else c :: pyReplaceFirst a b rest

def mcpToolNameOfClaude (s : String) : String :=
  ⟨pyReplaceFirst '_' ':' s.data⟩

/-- A tool descriptor as submitted to the completion API
(`MCPClient.get_tools_for_claude`); the constant `"type": "object"` of the
input schema is implicit. -/
structure ClaudeTool where
  name : String
  description : String
  properties : List (String × ParamSpec)
  required : List String
deriving DecidableEq

def get_tools_for_claude (tools : List MCPTool) : List ClaudeTool :=
  tools.map (fun t => ⟨claudeToolName t.name, t.description, t.parameters, ["query"]⟩)

/-- `ClaudeClient.handle_tool_use(tool_use_block)`: convert the block's
completion-API tool name back to MCP form, dispatch, and format.  Every
path returns a string; exceptions from the dispatcher are caught and
rendered as a `Tool error:` text that names the block's tool. -/
def handle_tool_use (tools : List MCPTool) (search : String → Except String String)
    (tool_name : String) (arguments : ToolArgs) : String :=
  match call_tool tools search (mcpToolNameOfClaude tool_name) arguments with
  | .ok result =>
      match result with
      | .withContent content => format_markdown_response content
      | .otherDict serialized => serialized
      | .nonDict text => format_markdown_response text
  | .error e => "Tool error: " ++ ("Error using tool " ++ tool_name ++ ": " ++ e)

/-- The events of the vendor SDK stream iterated by
`ClaudeClient.stream_response`.  `exn m` stands for an exception with
message `m` raised by the API call or by advancing the iterator at that
point (subsequent events are never observed). -/
inductive ApiEvent where
  | textDelta (text : String)
  | inputJsonDelta (partialJson : String)
  | blockStartTool (name : String)
  | blockStartOther
  | blockStop
  | exn (message : String)
deriving DecidableEq

def ApiEvent.isExn : ApiEvent → Bool
  | .exn _ => true
  | _ => false

/-- The apology fragment yielded by `stream_response`'s `except` clause. -/
def apologyText (m : String) : String :=
  "I apologize, but I encountered an error: " ++ ("Error communicating with Claude: " ++ m)

/-- The `[Using <tool>...]` marker fragment yielded before a tool result. -/
def usingNotice (toolName : String) : String :=
  "\n\n[Using " ++ toolName ++ "...]\n\n"

/-- The drain loop of `ClaudeClient.stream_response`, as a function from
the remaining API events and the tool-block state (`current_tool_block`,
`tool_input_json`) to the list of yielded text fragments.

* `parse` abstracts `json.loads` on the accumulated argument text (`none`
  = parse failure, swallowed by the bare `except` which substitutes `{}`);
  an empty accumulated text is replaced by `{}` without parsing;
* a text delta is yielded as-is;
* a partial-json delta accumulates only while a tool block is open;
* a tool block start records the tool name and clears the accumulator;
  a non-tool block start does nothing;
* a block stop with an open tool block parses the arguments, runs
  `handle_tool_use`, and if the result is truthy (non-empty) yields the
  `[Using ...]` notice then the result, then clears the block state;
* an exception while iterating yields the single apology fragment and
  ends the generator (the surrounding `try` spans the whole loop). -/
def drainEvents (tools : List MCPTool) (search : String → Except String String)
    (parse : String → Option ToolArgs) :
    List ApiEvent → Option String → String → List String
  | [], _, _ => []
  | .textDelta t :: rest, cur, js => t :: drainEvents tools search parse rest cur js
  | .inputJsonDelta p :: rest, cur, js =>
      drainEvents tools search parse rest cur (if cur.isSome then js ++ p else js)
  | .blockStartTool n :: rest, _, _ => drainEvents tools search parse rest (some n) ""
  | .blockStartOther :: rest, cur, js => drainEvents tools search parse rest cur js
  | .blockStop :: rest, cur, js =>
      match cur with
      | some n =>
          let args := match (if js = "" then none else parse js) with
            | some a => a
            | none => ToolArgs.empty
          let tr := handle_tool_use tools search n args
          (if tr = "" then [] else [usingNotice n, tr]) ++
            drainEvents tools search parse rest none ""
      | none => drainEvents tools search parse rest cur js
  | .exn m :: _, _, _ => [apologyText m]

/-- `ClaudeClient.stream_response` seen from its consumer: the fragment
sequence produced by draining the API events from the initial state (no
open tool block, empty accumulator). -/
def streamResponseFragments (tools : List MCPTool)
    (search : String → Except String String) (parse : String → Option ToolArgs)
    (events : List ApiEvent) : List String :=
  drainEvents tools search parse events none ""

/-- The full stream pipeline of `GET /chat/stream/<sid>`: the relay
generator draining the adapter's fragment sequence.  The adapter never
raises past its own `try`/`except` (it converts exceptions into the
apology fragment), so the relay's drain loop sees no exception. -/
def relayWithAdapter (clientAvailable : Bool) (tools : List MCPTool)
    (search : String → Except String String) (parse : String → Option ToolArgs)
    (sid : String) (ctx : Option Ctx) (events : List ApiEvent) (st : Store)
    (now mt : Nat) (freshId : String) : List SSEEvent × Store :=
  relayGenerate clientAvailable sid ctx
    (streamResponseFragments tools search parse events) none st now mt freshId

/-! ### C8: transport failures become a single apology fragment -/

/-- C8: if iterating the completion-API stream raises at any point, the
fragment sequence the adapter yields is exactly the fragments produced
before the exception followed by one final apology fragment that embeds
the error message; events after the exception are never observed and the
exception does not propagate (the result is a plain fragment list). -/
theorem adapter_apology_on_error (tools : List MCPTool)
    (search : String → Except String String) (parse : String → Option ToolArgs)
    (pre : List ApiEvent) (m : String) (rest : List ApiEvent)
    (cur : Option String) (js : String)
    (h : ∀ e ∈ pre, e.isExn = false) :
    drainEvents tools search parse (pre ++ ApiEvent.exn m :: rest) cur js
      = drainEvents tools search parse pre cur js ++ [apologyText m] := by
  induction pre generalizing cur js with
  | nil => simp [drainEvents]
  | cons e pre ih =>
      have he : e.isExn = false := h e (List.mem_cons_self e pre)
      have h' : ∀ x ∈ pre, x.isExn = false := fun x hx => h x (List.mem_cons_of_mem e hx)
      cases e with
      | textDelta t =>
          simp only [List.cons_append, drainEvents, List.append_eq]
          rw [ih _ _ h']
      | inputJsonDelta p =>
          simp only [List.cons_append, drainEvents, List.append_eq]
          rw [ih _ _ h']
      | blockStartTool n =>
          simp only [List.cons_append, drainEvents, List.append_eq]
          rw [ih _ _ h']
      | blockStartOther =>
          simp only [List.cons_append, drainEvents, List.append_eq]
          rw [ih _ _ h']
      | blockStop =>
          cases cur with
          | none =>
              simp only [List.cons_append, drainEvents, List.append_eq]
              rw [ih _ _ h']
          | some n =>
              simp only [List.cons_append, drainEvents, List.append_eq]
              rw [ih _ _ h']
              exact (List.append_assoc _ _ _).symm
      | exn m2 => simp [ApiEvent.isExn] at he

/-- Witness for `adapter_apology_on_error` at a concrete input. -/
theorem adapter_apology_on_error_witness :
    drainEvents [] (fun _ => Except.error "e") (fun _ => none)
        ([ApiEvent.textDelta "hi"] ++ ApiEvent.exn "boom" :: [ApiEvent.textDelta "late"])
        none ""
      = drainEvents [] (fun _ => Except.error "e") (fun _ => none)
          [ApiEvent.textDelta "hi"] none "" ++ [apologyText "boom"] :=
  adapter_apology_on_error [] (fun _ => Except.error "e") (fun _ => none)
    [ApiEvent.textDelta "hi"] "boom" [ApiEvent.textDelta "late"] none ""
    (by intro e he; simp at he; rw [he]; rfl)

/-! ### C7: unparsable tool arguments fall back to the empty object -/

/-- C7: when a tool block stops and the accumulated partial-argument text
is empty or fails to parse, the tool is invoked with the empty argument
object and the drain loop continues with the remaining events instead of
failing. -/
theorem tool_args_parse_failure (tools : List MCPTool)
    (search : String → Except String String) (parse : String → Option ToolArgs)
    (n js : String) (rest : List ApiEvent)
    (h : js = "" ∨ parse js = none) :
    drainEvents tools search parse (ApiEvent.blockStop :: rest) (some n) js
      = (if handle_tool_use tools search n ToolArgs.empty = "" then []
         else [usingNotice n, handle_tool_use tools search n ToolArgs.empty]) ++
          drainEvents tools search parse rest none "" := by
  have harg : (match (if js = "" then none else parse js) with
      | some a => a
      | none => ToolArgs.empty) = ToolArgs.empty := by
    rcases h with h | h
    · simp [h]
    · by_cases hjs : js = "" <;> simp [hjs, h]
  simp only [drainEvents, harg]

/-- Witness for `tool_args_parse_failure` at a concrete input. -/
theorem tool_args_parse_failure_witness :
    drainEvents [] (fun _ => Except.error "e") (fun _ => none)
        (ApiEvent.blockStop :: [ApiEvent.textDelta "t"]) (some "x") "not json"
      = (if handle_tool_use [] (fun _ => Except.error "e") "x" ToolArgs.empty = "" then []
         else [usingNotice "x",
           handle_tool_use [] (fun _ => Except.error "e") "x" ToolArgs.empty]) ++
          drainEvents [] (fun _ => Except.error "e") (fun _ => none)
            [ApiEvent.textDelta "t"] none "" :=
  tool_args_parse_failure [] (fun _ => Except.error "e") (fun _ => none)
    "x" "not json" [ApiEvent.textDelta "t"] (Or.inr rfl)

/-! ### C4: unknown tool names -/

def SSEEvent.isError : SSEEvent → Bool
  | .errorEv _ => true
  | _ => false

theorem tool_error_text_ne_empty (s : String) : ("Tool error: " ++ s) ≠ "" := by
  intro h
  have hlen := congrArg String.length h
  rw [String.length_append] at hlen
  have h1 : ("Tool error: " : String).length = 12 := rfl
  have h2 : ("" : String).length = 0 := rfl
  omega

/-- C4 (amended): a tool-call fragment naming a tool unknown to the
dispatcher makes the dispatcher raise `ValueError`; `handle_tool_use`
catches it and returns the `Tool error:` text naming the tool, so the
adapter yields the `[Using <name>...]` notice fragment followed by that
error text and keeps draining; relayed through the stream generator these
become ordinary `chunk` events and the stream still terminates with the
`end` event, not with a terminal `error` event. -/
theorem unknown_tool_stream_behavior (tools : List MCPTool)
    (search : String → Except String String) (parse : String → Option ToolArgs)
    (n : String) (rest : List ApiEvent) (cur : Option String) (js : String)
    (sid : String) (ctx : Option Ctx) (st : Store) (now mt : Nat) (freshId : String)
    (hn : tools.find? (fun t => t.name = mcpToolNameOfClaude n) = none)
    (hsid : sid ≠ "") :
    drainEvents tools search parse
        (ApiEvent.blockStartTool n :: ApiEvent.blockStop :: rest) cur js
      = usingNotice n ::
        ("Tool error: " ++ ("Error using tool " ++ n ++ ": " ++
          ("Tool " ++ mcpToolNameOfClaude n ++ " not found"))) ::
        drainEvents tools search parse rest none "" ∧
    ∃ st2 evs, relayWithAdapter true tools search parse sid ctx
        (ApiEvent.blockStartTool n :: ApiEvent.blockStop :: rest) st now mt freshId
        = (evs, st2) ∧ evs.getLast? = some (.endEv ("msg_" ++ toString mt)) := by
  have htu : handle_tool_use tools search n ToolArgs.empty
      = "Tool error: " ++ ("Error using tool " ++ n ++ ": " ++
          ("Tool " ++ mcpToolNameOfClaude n ++ " not found")) := by
    unfold handle_tool_use call_tool
    rw [hn]
  have hdrain : drainEvents tools search parse
      (ApiEvent.blockStartTool n :: ApiEvent.blockStop :: rest) cur js
      = usingNotice n ::
        ("Tool error: " ++ ("Error using tool " ++ n ++ ": " ++
          ("Tool " ++ mcpToolNameOfClaude n ++ " not found"))) ::
        drainEvents tools search parse rest none "" := by
    simp [drainEvents, htu, tool_error_text_ne_empty]
  refine ⟨hdrain, ?_⟩
  obtain ⟨st2, hadd, _⟩ := add_message_eq st sid "assistant"
    (String.join (streamResponseFragments tools search parse
      (ApiEvent.blockStartTool n :: ApiEvent.blockStop :: rest)))
    ctx now freshId hsid
  refine ⟨st2, SSEEvent.start sid ::
      ((streamResponseFragments tools search parse
        (ApiEvent.blockStartTool n :: ApiEvent.blockStop :: rest)).map SSEEvent.chunk ++
        [SSEEvent.endEv ("msg_" ++ toString mt)]), ?_, ?_⟩
  · unfold relayWithAdapter relayGenerate
    simp [hadd]
  · rw [show (SSEEvent.start sid ::
        ((streamResponseFragments tools search parse
          (ApiEvent.blockStartTool n :: ApiEvent.blockStop :: rest)).map SSEEvent.chunk ++
          [SSEEvent.endEv ("msg_" ++ toString mt)]))
      = (SSEEvent.start sid ::
        (streamResponseFragments tools search parse
          (ApiEvent.blockStartTool n :: ApiEvent.blockStop :: rest)).map SSEEvent.chunk) ++
          [SSEEvent.endEv ("msg_" ++ toString mt)] from by simp]
    exact List.getLast?_concat _

/-- Witness for `unknown_tool_stream_behavior` at a concrete input. -/
theorem unknown_tool_stream_behavior_witness :
    drainEvents mcpToolsInit (fun _ => Except.error "unused") (fun _ => none)
        (ApiEvent.blockStartTool "nosuch" :: ApiEvent.blockStop :: []) none ""
      = usingNotice "nosuch" ::
        ("Tool error: " ++ ("Error using tool " ++ "nosuch" ++ ": " ++
          ("Tool " ++ mcpToolNameOfClaude "nosuch" ++ " not found"))) ::
        drainEvents mcpToolsInit (fun _ => Except.error "unused") (fun _ => none) [] none "" ∧
    ∃ st2 evs, relayWithAdapter true mcpToolsInit (fun _ => Except.error "unused")
        (fun _ => none) "s" none
        (ApiEvent.blockStartTool "nosuch" :: ApiEvent.blockStop :: []) Store.empty 0 0 "f"
        = (evs, st2) ∧ evs.getLast? = some (.endEv ("msg_" ++ toString 0)) :=
  unknown_tool_stream_behavior mcpToolsInit (fun _ => Except.error "unused")
    (fun _ => none) "nosuch" [] none "" "s" none Store.empty 0 0 "f"
    (by decide) (by decide)

/-- C4 counterexample to the claim as stated: on a concrete stream whose
single tool-call fragment names the unknown tool `nosuch`, the relay does
NOT transition to a terminal `error` event — the emitted sequence carries
the notice and the tool-error text as ordinary `chunk` events and ends
with `end`; no `error` event is emitted at all. -/
theorem unknown_tool_stream_counterexample :
    (relayWithAdapter true mcpToolsInit (fun _ => Except.error "unused")
        (fun _ => none) "s" none
        [ApiEvent.blockStartTool "nosuch", ApiEvent.blockStop]
        Store.empty 0 0 "f").1.getLast? = some (.endEv "msg_0") ∧
    ((relayWithAdapter true mcpToolsInit (fun _ => Except.error "unused")
        (fun _ => none) "s" none
        [ApiEvent.blockStartTool "nosuch", ApiEvent.blockStop]
        Store.empty 0 0 "f").1.countP SSEEvent.isError) = 0 ∧
    ((relayWithAdapter true mcpToolsInit (fun _ => Except.error "unused")
        (fun _ => none) "s" none
        [ApiEvent.blockStartTool "nosuch", ApiEvent.blockStop]
        Store.empty 0 0 "f").1.countP SSEEvent.isChunk) = 2 := by
  refine ⟨?_, ?_, ?_⟩ <;> decide

/-! ### C5: tool-name round trip -/

theorem map_colon_eq_self (l : List Char) (h : ':' ∉ l) :
    l.map (fun c => if c = ':' then '_' else c) = l := by
  induction l with
  | nil => rfl
  | cons a l ih =>
      have hne : ¬ a = ':' := by intro he; subst he; exact h (List.mem_cons_self _ _)
      have hl : ':' ∉ l := fun hm => h (List.mem_cons_of_mem a hm)
      simp only [List.map_cons, if_neg hne, ih hl]

theorem pyReplaceFirst_append (l r : List Char) (h : '_' ∉ l) :
    pyReplaceFirst '_' ':' (l ++ '_' :: r) = l ++ ':' :: r := by
  induction l with
  | nil => simp [pyReplaceFirst]
  | cons a l ih =>
      have hne : ¬ a = '_' := by intro he; subst he; exact h (List.mem_cons_self _ _)
      have hl : '_' ∉ l := fun hm => h (List.mem_cons_of_mem a hm)
      simp only [List.cons_append, pyReplaceFirst, List.append_eq, if_neg hne, ih hl]

/-- C5 (amended): for a tool name with exactly one embedded `:` separator
and no underscore anywhere before it, converting for the completion API
(`replace(':', '_')` in `get_tools_for_claude`) and then reversing
(`replace('_', ':', 1)` in `handle_tool_use`) restores the original name.
Underscores after the separator are harmless; an underscore before it
breaks the round trip (see the counterexample). -/
theorem tool_name_roundtrip (pre post : List Char)
    (h1 : ':' ∉ pre) (h2 : '_' ∉ pre) (h3 : ':' ∉ post) :
    mcpToolNameOfClaude (claudeToolName ⟨pre ++ ':' :: post⟩) = ⟨pre ++ ':' :: post⟩ := by
  unfold claudeToolName mcpToolNameOfClaude
  have hmap : (pre ++ ':' :: post).map (fun c => if c = ':' then '_' else c)
      = pre ++ '_' :: post := by
    rw [List.map_append, map_colon_eq_self pre h1, List.map_cons, if_pos rfl,
      map_colon_eq_self post h3]
  show (⟨pyReplaceFirst '_' ':'
    ((⟨(pre ++ ':' :: post).map (fun c => if c = ':' then '_' else c)⟩ : String).data)⟩ : String)
    = ⟨pre ++ ':' :: post⟩
  rw [show ((⟨(pre ++ ':' :: post).map (fun c => if c = ':' then '_' else c)⟩ : String).data)
      = (pre ++ ':' :: post).map (fun c => if c = ':' then '_' else c) from rfl,
    hmap, pyReplaceFirst_append pre post h2]

/-- Witness for `tool_name_roundtrip` at the concrete name `ab:c_d`. -/
theorem tool_name_roundtrip_witness :
    mcpToolNameOfClaude (claudeToolName ⟨['a', 'b'] ++ ':' :: ['c', '_', 'd']⟩)
      = ⟨['a', 'b'] ++ ':' :: ['c', '_', 'd']⟩ :=
  tool_name_roundtrip ['a', 'b'] ['c', '_', 'd'] (by decide) (by decide) (by decide)

/-- C5 counterexample to the claim as stated: the name `a_b:c` contains
exactly one embedded `:` separator, yet converting and reversing yields
`a:b_c` — the reversal rewrites the pre-existing underscore, not the one
that replaced the separator. -/
theorem tool_name_roundtrip_counterexample :
    ("a_b:c" : String).data.count ':' = 1 ∧
    mcpToolNameOfClaude (claudeToolName "a_b:c") = "a:b_c" ∧
    mcpToolNameOfClaude (claudeToolName "a_b:c") ≠ "a_b:c" := by
  refine ⟨?_, ?_, ?_⟩ <;> decide

/-! ## Chat HTTP API (src/chat/api.py) -/

/-- The parsed JSON body of `POST /chat/message` with the `data.get`
defaults: missing `message`/`session_id` default to `""`, missing
`context` to the empty object. -/
structure Body where
  message : String := ""
  session_id : String := ""
  context : Option Ctx := none
deriving DecidableEq

/-- The response of `send_message`: either the success JSON object with
`session_id` and `stream_url`, or an HTTP error status with its `error`
text. -/
inductive ApiResp where
  | ok (session_id : String) (stream_url : String)
  | err (code : Nat) (error : String)
deriving DecidableEq

/-- `send_message` (the `POST /chat/message` handler).  `body = none`
models `request.get_json()` yielding no usable data (the `if not data`
guard).  `freshId` stands for the uuid minted when no session id is
given; `now` for `datetime.now()`.  On success the handler creates or
touches the session, appends the user message once, and returns the
session id with its stream URL. -/
def send_message (enabled : Bool) (body : Option Body) (st : Store)
    (freshId : String) (now : Nat) : ApiResp × Store :=
  if enabled = false then (.err 503 "Chat service is disabled", st)
  else
    match body with
    | none => (.err 400 "No data provided", st)
    | some b =>
        let message := pyStripS b.message
        if message = "" then (.err 400 "Message is required", st)
        else if message.length > 10000 then (.err 400 "Message too long", st)
        else
          let cs := create_session st (pyStripS b.session_id) freshId now
          match add_message cs.2 cs.1 "user" message b.context now freshId with
          | some st2 => (.ok cs.1 ("/api/chat/stream/" ++ cs.1), st2)
          | none => (.err 500 "Internal server error", cs.2)

theorem trimMessages_getLast (l : List Message) (m : Message) :
    (trimMessages (l ++ [m])).getLast? = some m := by
  unfold trimMessages
  split
  · next hgt =>
      have hk : (l ++ [m]).length - MAX_HISTORY_LENGTH ≤ l.length := by
        simp only [List.length_append, List.length_singleton, MAX_HISTORY_LENGTH]
        omega
      rw [List.drop_append_of_le_length hk, List.getLast?_concat]
  · rw [List.getLast?_concat]

/-- C9: `POST /chat/message` returns 503 when chat is disabled, 400 when
no body data is provided, 400 when the stripped message is empty, 400
when the stripped message exceeds 10000 characters, and otherwise returns
the session id with its stream URL while appending the user message to
that session exactly once (the new message list is the old one extended
by the single user message, trimmed to the cap, with the user message
last). -/
theorem send_message_spec (st : Store) (freshId : String) (now : Nat) (b : Body) :
    (∀ body2, send_message false body2 st freshId now
      = (.err 503 "Chat service is disabled", st)) ∧
    send_message true none st freshId now = (.err 400 "No data provided", st) ∧
    (pyStripS b.message = "" →
      send_message true (some b) st freshId now = (.err 400 "Message is required", st)) ∧
    (pyStripS b.message ≠ "" → (pyStripS b.message).length > 10000 →
      send_message true (some b) st freshId now = (.err 400 "Message too long", st)) ∧
    (pyStripS b.message ≠ "" → (pyStripS b.message).length ≤ 10000 →
      (create_session st (pyStripS b.session_id) freshId now).1 ≠ "" →
      ∃ st2,
        send_message true (some b) st freshId now =
          (.ok (create_session st (pyStripS b.session_id) freshId now).1
            ("/api/chat/stream/" ++ (create_session st (pyStripS b.session_id) freshId now).1),
           st2) ∧
        get_messages st2 (create_session st (pyStripS b.session_id) freshId now).1 =
          trimMessages
            (get_messages (create_session st (pyStripS b.session_id) freshId now).2
                (create_session st (pyStripS b.session_id) freshId now).1 ++
              [Message.mk "user" (pyStripS b.message) (b.context.getD Ctx.empty) now]) ∧
        (get_messages st2
            (create_session st (pyStripS b.session_id) freshId now).1).getLast? =
          some (Message.mk "user" (pyStripS b.message) (b.context.getD Ctx.empty) now)) := by
  refine ⟨?_, rfl, ?_, ?_, ?_⟩
  · intro body2; rfl
  · intro h
    simp [send_message, h]
  · intro hm hlen
    simp [send_message, hm, hlen]
  · intro hm hlen hsid
    have hngt : ¬ ((pyStripS b.message).length > 10000) := by omega
    obtain ⟨st2, hadd, hmsgs⟩ :=
      add_message_eq (create_session st (pyStripS b.session_id) freshId now).2
        (create_session st (pyStripS b.session_id) freshId now).1
        "user" (pyStripS b.message) b.context now freshId hsid
    refine ⟨st2, ?_, hmsgs, ?_⟩
    · simp [send_message, hm, hngt, hadd]
    · rw [hmsgs, trimMessages_getLast]

/-! Witness inputs for `send_message_spec`: small bodies for each branch
plus a 10001-character message for the too-long branch (evaluated through
`pyStrip_of_no_space` rather than kernel computation). -/

theorem dropWhile_eq_self_of_all (p : Char → Bool) (l : List Char)
    (h : ∀ c ∈ l, p c = false) : l.dropWhile p = l := by
  cases l with
  | nil => rfl
  | cons a t =>
      rw [List.dropWhile_cons, if_neg]
      simp [h a (List.mem_cons_self _ _)]

theorem pyStrip_of_no_space (l : List Char) (h : ∀ c ∈ l, isPySpace c = false) :
    pyStripL l = l := by
  unfold pyStripL
  rw [dropWhile_eq_self_of_all _ _ h,
    dropWhile_eq_self_of_all _ _ (fun c hc => h c (List.mem_reverse.mp hc)),
    List.reverse_reverse]

def longMsgW : String := ⟨List.replicate 10001 'a'⟩

theorem longMsgW_strip : pyStripS longMsgW = longMsgW := by
  unfold pyStripS longMsgW
  rw [show (⟨List.replicate 10001 'a'⟩ : String).data = List.replicate 10001 'a' from rfl,
    pyStrip_of_no_space]
  intro c hc
  rw [List.eq_of_mem_replicate hc]
  rfl

theorem longMsgW_length : longMsgW.length = 10001 := by
  show (List.replicate 10001 'a').length = 10001
  rw [List.length_replicate]

/-- Witness for `send_message_spec`, discharging every hypothesis at
concrete inputs. -/
theorem send_message_spec_witness :
    send_message false (some ⟨"hi", "", none⟩) Store.empty "f" 0
      = (.err 503 "Chat service is disabled", Store.empty) ∧
    send_message true none Store.empty "f" 0
      = (.err 400 "No data provided", Store.empty) ∧
    send_message true (some ⟨"   ", "", none⟩) Store.empty "f" 0
      = (.err 400 "Message is required", Store.empty) ∧
    send_message true (some ⟨longMsgW, "", none⟩) Store.empty "f" 0
      = (.err 400 "Message too long", Store.empty) ∧
    (∃ st2,
      send_message true (some ⟨"hi", "", none⟩) Store.empty "f" 0 =
        (.ok (create_session Store.empty (pyStripS "") "f" 0).1
          ("/api/chat/stream/" ++ (create_session Store.empty (pyStripS "") "f" 0).1),
         st2) ∧
      get_messages st2 (create_session Store.empty (pyStripS "") "f" 0).1 =
        trimMessages
          (get_messages (create_session Store.empty (pyStripS "") "f" 0).2
              (create_session Store.empty (pyStripS "") "f" 0).1 ++
            [Message.mk "user" (pyStripS "hi") Ctx.empty 0]) ∧
      (get_messages st2 (create_session Store.empty (pyStripS "") "f" 0).1).getLast? =
        some (Message.mk "user" (pyStripS "hi") Ctx.empty 0)) := by
  refine ⟨(send_message_spec Store.empty "f" 0 ⟨"hi", "", none⟩).1 _,
    (send_message_spec Store.empty "f" 0 ⟨"hi", "", none⟩).2.1,
    (send_message_spec Store.empty "f" 0 ⟨"   ", "", none⟩).2.2.1 (by decide),
    (send_message_spec Store.empty "f" 0 ⟨longMsgW, "", none⟩).2.2.2.1
      (by rw [show (⟨longMsgW, "", none⟩ : Body).message = longMsgW from rfl, longMsgW_strip]
          intro h
          have := congrArg String.length h
          rw [longMsgW_length] at this
          simp at this)
      (by rw [show (⟨longMsgW, "", none⟩ : Body).message = longMsgW from rfl, longMsgW_strip,
            longMsgW_length]
          omega),
    ?_⟩
  exact (send_message_spec Store.empty "f" 0 ⟨"hi", "", none⟩).2.2.2.2
    (by decide) (by decide) (by decide)

/-! ## Context formatting and the submitted message list
(src/chat/claude_client.py `format_context_for_prompt` / `stream_response`,
src/chat/api.py `stream_response` route) -/

/-- Python `f"{n:,}"` digit grouping, used for cell and gene counts. -/
def commaFmtAux : List Char → List Char
  | a :: b :: c :: d :: rest => a :: b :: c :: ',' :: commaFmtAux (d :: rest)
  | l => l

def commaFmt (n : Nat) : String :=
  ⟨(commaFmtAux (toString n).data.reverse).reverse⟩

/-- `ClaudeClient.format_context_for_prompt(context)`.  Python truthiness
checks on each value (`None`, `""`, `0`, `[]`, missing key are falsy) are
the explicit emptiness tests; an entirely empty context yields `""`
exactly as the `if not context` guard does. -/
def format_context_for_prompt (context : Ctx) : String :=
  let parts : List String :=
    (match context.current_node with
     | some s => if s ≠ "" then ["Current node: " ++ s] else []
     | none => []) ++
    (match context.current_program with
     | some s => if s ≠ "" then ["Current program: " ++ s] else []
     | none => []) ++
    (match context.page_type with
     | some s => if s ≠ "" then ["Page type: " ++ s] else []
     | none => []) ++
    (match context.node_info with
     | some info =>
        let ip : List String :=
          (match info.cell_count with
           | some n => if n ≠ 0 then [commaFmt n ++ " cells"] else []
           | none => []) ++
          (match info.gene_count with
           | some n => if n ≠ 0 then [commaFmt n ++ " genes"] else []
           | none => []) ++
          (match info.program_count with
           | some n => if n ≠ 0 then [toString n ++ " programs"] else []
           | none => [])
        if ip ≠ [] then ["Node contains: " ++ String.intercalate ", " ip] else []
     | none => []) ++
    (match context.visible_data with
     | some l => if l ≠ [] then ["Currently visible: " ++ String.intercalate ", " l] else []
     | none => [])
  if parts ≠ [] then "\n\nCurrent context: " ++ String.intercalate " | " parts else ""

/-- The message list `ClaudeClient.stream_response` submits to the
completion API: the conversation history copied from the session store,
plus the user message re-appended with the formatted context suffix.  The
`if context:`/`if context_info:` truthiness guards collapse to appending
`format_context_for_prompt context`, which is empty exactly when the
guards would skip the append. -/
def buildClaudeMessages (message : String) (history : List RoleContent)
    (context : Ctx) : List RoleContent :=
  history ++ [⟨"user", message ++ format_context_for_prompt context⟩]

/-- The `for msg in reversed(messages)` search of the `/chat/stream/<sid>`
route: the content and context of the most recent `user` message. -/
def lastUserMessage (msgs : List Message) : Option (String × Ctx) :=
  (msgs.reverse.find? (fun m => m.role = "user")).map (fun m => (m.content, m.context))

/-- The message list submitted to the completion API when
`GET /chat/stream/<sid>` streams a response: the route finds the last user
message and its context, and the adapter appends it (with the context
suffix) to the history obtained from the session store.  `none` models the
route's error responses (unknown session, no messages, no user message). -/
def streamSubmitted (st : Store) (sid : String) : Option (List RoleContent) :=
  match lastUserMessage (get_messages st sid) with
  | none => none
  | some (m, ctx) => some (buildClaudeMessages m (get_conversation_history st sid) ctx)

/-! ### C10: the just-posted user message is submitted twice -/

theorem trimMessages_snoc (l : List Message) (m : Message) :
    ∃ l2, trimMessages (l ++ [m]) = l2 ++ [m] := by
  unfold trimMessages
  split
  · next hgt =>
      have hk : (l ++ [m]).length - MAX_HISTORY_LENGTH ≤ l.length := by
        simp only [List.length_append, List.length_singleton, MAX_HISTORY_LENGTH]
        omega
      exact ⟨_, List.drop_append_of_le_length hk⟩
  · exact ⟨l, rfl⟩

/-- C10: after a successful `POST /chat/message` for (stripped) message
`m`, the list the adapter submits to the completion API for that session
ends with the user message twice: the history obtained from the session
store already contains it as its last element (with role `user` and
content exactly `m`), and the adapter re-appends it with the formatted
context suffix. -/
theorem submitted_messages_duplicate_user (st : Store) (freshId : String)
    (now : Nat) (b : Body)
    (hm : pyStripS b.message ≠ "") (hlen : (pyStripS b.message).length ≤ 10000)
    (hsid : (create_session st (pyStripS b.session_id) freshId now).1 ≠ "") :
    ∃ st2 hist0,
      send_message true (some b) st freshId now =
        (.ok (create_session st (pyStripS b.session_id) freshId now).1
          ("/api/chat/stream/" ++ (create_session st (pyStripS b.session_id) freshId now).1),
         st2) ∧
      streamSubmitted st2 (create_session st (pyStripS b.session_id) freshId now).1 =
        some (hist0 ++
          [⟨"user", pyStripS b.message⟩,
           ⟨"user", pyStripS b.message ++
             format_context_for_prompt (b.context.getD Ctx.empty)⟩]) := by
  have hngt : ¬ ((pyStripS b.message).length > 10000) := by omega
  obtain ⟨st2, hadd, hmsgs⟩ :=
    add_message_eq (create_session st (pyStripS b.session_id) freshId now).2
      (create_session st (pyStripS b.session_id) freshId now).1
      "user" (pyStripS b.message) b.context now freshId hsid
  obtain ⟨l2, hl2⟩ := trimMessages_snoc
    (get_messages (create_session st (pyStripS b.session_id) freshId now).2
      (create_session st (pyStripS b.session_id) freshId now).1)
    (Message.mk "user" (pyStripS b.message) (b.context.getD Ctx.empty) now)
  have hmsgs2 : get_messages st2 (create_session st (pyStripS b.session_id) freshId now).1
      = l2 ++ [Message.mk "user" (pyStripS b.message) (b.context.getD Ctx.empty) now] := by
    rw [hmsgs, hl2]
  refine ⟨st2, l2.filterMap
    (fun m => if m.role = "user" ∨ m.role = "assistant"
      then some ⟨m.role, m.content⟩ else none), ?_, ?_⟩
  · simp [send_message, hm, hngt, hadd]
  · unfold streamSubmitted lastUserMessage
    rw [hmsgs2]
    rw [List.reverse_append, List.reverse_singleton, List.singleton_append,
      List.find?_cons_of_pos _ (by rfl)]
    unfold buildClaudeMessages get_conversation_history
    rw [hmsgs2, List.filterMap_append]
    simp [List.append_assoc]

/-- Witness for `submitted_messages_duplicate_user` at a concrete input. -/
theorem submitted_messages_duplicate_user_witness :
    ∃ st2 hist0,
      send_message true (some ⟨"hello", "", none⟩) Store.empty "f" 0 =
        (.ok (create_session Store.empty (pyStripS "") "f" 0).1
          ("/api/chat/stream/" ++ (create_session Store.empty (pyStripS "") "f" 0).1),
         st2) ∧
      streamSubmitted st2 (create_session Store.empty (pyStripS "") "f" 0).1 =
        some (hist0 ++
          [⟨"user", pyStripS "hello"⟩,
           ⟨"user", pyStripS "hello" ++ format_context_for_prompt Ctx.empty⟩]) :=
  submitted_messages_duplicate_user Store.empty "f" 0 ⟨"hello", "", none⟩
    (by decide) (by decide) (by decide)

end ChatCore
